import Mathlib

/-!
Verification development for the MelodiQ game server core (`GameManager`).

The TypeScript source is shallowly embedded as pure Lean functions:
- JS objects used as string-keyed maps (`lobby.players`, `round.guesses`) are
  association lists `List (String × α)` in insertion order, matching the
  enumeration order of string keys in JS objects.
- In-place mutation becomes explicit state passing: every operation returns
  the updated `Lobby` (or `GameManager`) value; early `return null` becomes
  `Option`/`Except` results.
- `Date.now()` timestamps are natural-number milliseconds passed as a `now`
  parameter; JS float arithmetic in the score computation is modelled over `ℚ`.
- `Math.random()` based choices (song pick, shuffles, code characters) are
  modelled as explicit parameters: an index for the song pick, shuffle
  functions for the decoy option sets, and a stream of alphabet indices for
  code generation (with explicit fuel for the retry recursion).
-/

/-- `Avatar` from `types/index.ts`. -/
structure Avatar where
  emoji : String
  color : String
deriving DecidableEq

/-- The `source` field of a `Song` (`'youtube' | 'spotify'`). -/
inductive SongSource where
  | youtube
  | spotify
deriving DecidableEq

/-- `Song` from `types/index.ts`. -/
structure Song where
  id : String
  title : String
  artist : String
  album : Option String
  coverUrl : Option String
  source : SongSource
  sourceId : String
  duration : ℚ
  previewUrl : Option String
  startTime : ℚ
  endTime : ℚ
deriving DecidableEq

/-- `GameMode` from `types/index.ts`. -/
inductive GameMode where
  | classic
  | blitz
  | elimination
  | marathon
deriving DecidableEq

/-- `GuessStyle` from `types/index.ts`. -/
inductive GuessStyle where
  | type
  | grid
  | multipleChoice
deriving DecidableEq

/-- `LobbyState` from `types/index.ts`. -/
inductive LobbyState where
  | waiting
  | starting
  | playing
  | roundEnd
  | gameOver
deriving DecidableEq

/-- `GameSettings` from `types/index.ts`. -/
structure GameSettings where
  mode : GameMode
  guessStyle : GuessStyle
  rounds : ℕ
  timePerRound : ℕ
  snippetDuration : ℕ
  maxPlayers : ℕ
  hintsEnabled : Bool
  showArtist : Bool
  scoreMultiplierSpeed : Bool
deriving DecidableEq

/-- `DEFAULT_SETTINGS` from `types/index.ts`. -/
def defaultSettings : GameSettings where
  mode := GameMode.classic
  guessStyle := GuessStyle.type
  rounds := 15
  timePerRound := 30
  snippetDuration := 5
  maxPlayers := 12
  hintsEnabled := true
  showArtist := false
  scoreMultiplierSpeed := true

/-- `Player` from `types/index.ts`. -/
structure Player where
  id : String
  socketId : String
  name : String
  avatar : Avatar
  score : ℕ
  streak : ℕ
  isHost : Bool
  isReady : Bool
  hasGuessed : Bool
  lastGuessCorrect : Bool
  roundScore : ℕ
deriving DecidableEq

/-- The per-player guess record stored in `RoundState.guesses`. -/
structure GuessRecord where
  guess : String
  correct : Bool
  time : ℚ
  score : ℕ
deriving DecidableEq

/-- The `phase` field of a `RoundState` (`'playing' | 'reveal'`). -/
inductive Phase where
  | playing
  | reveal
deriving DecidableEq

/-- `RoundState` from `types/index.ts`; `guesses` is a string-keyed object. -/
structure RoundState where
  roundNumber : ℕ
  song : Song
  startedAt : ℕ
  phase : Phase
  guesses : List (String × GuessRecord)
  gridOptions : Option (List String)
deriving DecidableEq

/-- `Lobby` from `types/index.ts`; `players` is a string-keyed object in
insertion order. -/
structure Lobby where
  code : String
  hostId : String
  state : LobbyState
  players : List (String × Player)
  settings : GameSettings
  songs : List Song
  currentRound : Option RoundState
  roundHistory : List RoundState
  createdAt : ℕ
deriving DecidableEq

/-! ### Association-list operations

JS objects / `Map`s used as string-keyed dictionaries.  `aset` models
`obj[k] = v` (replace in place if the key exists, else append, preserving
key enumeration order), `aremove` models `delete obj[k]` / `map.delete(k)`,
`alookup` models `obj[k]` / `map.get(k)`. -/

def alookup {α : Type} (k : String) : List (String × α) → Option α
  | [] => none
  | (k0, v) :: rest => if k0 = k then some v else alookup k rest

def aset {α : Type} (k : String) (v : α) : List (String × α) → List (String × α)
  | [] => [(k, v)]
  | (k0, v0) :: rest => if k0 = k then (k, v) :: rest else (k0, v0) :: aset k v rest

def aremove {α : Type} (k : String) : List (String × α) → List (String × α)
  | [] => []
  | (k0, v0) :: rest => if k0 = k then rest else (k0, v0) :: aremove k rest

theorem alookup_aset_self {α : Type} (k : String) (v : α) :
    ∀ l : List (String × α), alookup k (aset k v l) = some v := by
  intro l
  induction l with
  | nil => simp [aset, alookup]
  | cons hd tl ih =>
    obtain ⟨k0, v0⟩ := hd
    by_cases h : k0 = k
    · simp [aset, alookup, h]
    · simp [aset, alookup, h, ih]

theorem alookup_aset_of_ne {α : Type} (k k' : String) (v : α) (hne : k' ≠ k) :
    ∀ l : List (String × α), alookup k (aset k' v l) = alookup k l := by
  intro l
  induction l with
  | nil => simp [aset, alookup, hne]
  | cons hd tl ih =>
    obtain ⟨k0, v0⟩ := hd
    by_cases h : k0 = k'
    · subst h
      simp [aset, alookup, hne]
    · simp only [aset, if_neg h]
      by_cases h2 : k0 = k
      · simp [alookup, h2]
      · simp [alookup, h2, ih]

theorem alookup_none_iff {α : Type} (k : String) :
    ∀ l : List (String × α), alookup k l = none ↔ ∀ p ∈ l, p.1 ≠ k := by
  intro l
  induction l with
  | nil => simp [alookup]
  | cons hd tl ih =>
    obtain ⟨k0, v0⟩ := hd
    by_cases h : k0 = k
    · simp [alookup, h]
    · simp [alookup, h, ih]

theorem mem_aremove_of_nodup {α : Type} (k : String) (l : List (String × α))
    (hnd : (l.map Prod.fst).Nodup) :
    ∀ p ∈ aremove k l, p ∈ l ∧ p.1 ≠ k := by
  induction l with
  | nil => simp [aremove]
  | cons hd tl ih =>
    obtain ⟨k0, v0⟩ := hd
    simp only [List.map_cons, List.nodup_cons] at hnd
    intro p hp
    by_cases h : k0 = k
    · subst h
      simp only [aremove, if_pos rfl] at hp
      refine ⟨List.mem_cons_of_mem _ hp, ?_⟩
      intro hk
      exact hnd.1 (hk ▸ List.mem_map_of_mem Prod.fst hp)
    · simp only [aremove, if_neg h] at hp
      rcases List.mem_cons.1 hp with hp1 | hp1
      · subst hp1
        exact ⟨List.mem_cons_self _ _, h⟩
      · obtain ⟨hmem, hne⟩ := ih hnd.2 p hp1
        exact ⟨List.mem_cons_of_mem _ hmem, hne⟩

theorem alookup_aremove_self {α : Type} (k : String) (l : List (String × α))
    (hnd : (l.map Prod.fst).Nodup) :
    alookup k (aremove k l) = none := by
  rw [alookup_none_iff]
  intro p hp
  exact (mem_aremove_of_nodup k l hnd p hp).2

theorem alookup_some_mem {α : Type} (k : String) (v : α) :
    ∀ l : List (String × α), alookup k l = some v → (k, v) ∈ l := by
  intro l
  induction l with
  | nil => simp [alookup]
  | cons hd tl ih =>
    obtain ⟨k0, v0⟩ := hd
    intro hv
    by_cases h : k0 = k
    · subst h
      have hv0 : v0 = v := by simpa [alookup] using hv
      subst hv0
      exact List.mem_cons_self _ _
    · simp only [alookup, if_neg h] at hv
      exact List.mem_cons_of_mem _ (ih hv)

/-! ### String normalization and fuzzy matching (`checkGuess` helpers) -/

/-- A character kept by the `[^\w\s]` strip: JS `\w` is `[A-Za-z0-9_]`. -/
def isWordChar (c : Char) : Bool := c.isAlphanum || c = '_'

/-- Replace every maximal run of whitespace by a single space
(the `replace(/\s+/g, ' ')` step). -/
def collapseSpaces : List Char → List Char
  | [] => []
  | [c] => if c.isWhitespace then [' '] else [c]
  | c :: d :: rest =>
    if c.isWhitespace && d.isWhitespace then collapseSpaces (d :: rest)
    else (if c.isWhitespace then ' ' else c) :: collapseSpaces (d :: rest)

/-- Drop leading and trailing whitespace (the `.trim()` step). -/
def trimChars (l : List Char) : List Char :=
  ((l.dropWhile Char.isWhitespace).reverse.dropWhile Char.isWhitespace).reverse

/-- The `normalize` closure inside `GameManager.checkGuess`: lower-case,
strip everything but word characters and whitespace, collapse whitespace,
trim. -/
def normalizeStr (s : String) : String :=
  ⟨trimChars (collapseSpaces ((s.data.map Char.toLower).filter
      (fun c => isWordChar c || c.isWhitespace)))⟩

/-- A title separator character from the split regex `/\s*[-–—|]\s*/`. -/
def isSeparatorChar (c : Char) : Bool := c = '-' || c = '–' || c = '—' || c = '|'

/-- Split a character list at separator characters.  The regex also eats
whitespace around the separator, but every piece is normalized (hence
trimmed) immediately afterwards, so splitting at the bare separator
characters yields the same normalized parts. -/
def splitParts : List Char → List (List Char)
  | [] => [[]]
  | c :: rest =>
    let r := splitParts rest
    if isSeparatorChar c then [] :: r
    else (c :: r.headD []) :: r.tailD []

/-- The `titleParts` computation in `checkGuess`: split the raw title on
separators, normalize each piece, keep the non-empty ones. -/
def titleParts (title : String) : List String :=
  ((splitParts title.data).map (fun cs => normalizeStr ⟨cs⟩)).filter
    (fun p => 0 < p.data.length)

/-- `leadsWith sub l` holds when `sub` is an initial segment of `l`. -/
def leadsWith : List Char → List Char → Bool
  | [], _ => true
  | _ :: _, [] => false
  | a :: as, b :: bs => a == b && leadsWith as bs

/-- `occursIn sub l` models JS `l.includes(sub)` (contiguous substring). -/
def occursIn (sub : List Char) : List Char → Bool
  | [] => sub.isEmpty
  | c :: rest => leadsWith sub (c :: rest) || occursIn sub rest

/-- One inner step of the Levenshtein dynamic program: walk the columns of
the current row.  `diag` is `matrix[i-1][j-1]`, `up :: ups` are
`matrix[i-1][j..]`, `left` is the entry just written at `matrix[i][j-1]`. -/
def levRowAux (bc : Char) : List Char → ℕ → List ℕ → ℕ → List ℕ
  | [], _, _, _ => []
  | _ :: _, _, [], _ => []
  | ac :: as, diag, up :: ups, left =>
    let cur := if bc = ac then diag else 1 + min diag (min left up)
    cur :: levRowAux bc as up ups cur

/-- Outer loop of the dynamic program: one row per character of `b`,
starting from row `i` with previous row `prev`. -/
def levRows (a : List Char) : List Char → ℕ → List ℕ → List ℕ
  | [], _, prev => prev
  | bc :: bs, i, prev =>
    levRows a bs (i + 1) (i :: levRowAux bc a (prev.headD 0) (prev.tailD []) i)

/-- `GameManager.levenshteinDistance(a, b)`: the classic unit-cost
insert/delete/substitute matrix; rows are indexed by `b`, columns by `a`,
and the answer is `matrix[b.length][a.length]` (the last entry of the final
row).  Row `0` is `0, 1, ..., a.length`. -/
def levenshteinDistance (a b : List Char) : ℕ :=
  (levRows a b 1 (List.range (a.length + 1))).getLastD 0

/-- `GameManager.checkGuess(guess, song)`.  The source is a sequence of
early `return true` checks; each check becomes one `||` disjunct, in source
order. -/
def checkGuess (guess : String) (song : Song) : Bool :=
  let ng := normalizeStr guess
  let nt := normalizeStr song.title
  let na := normalizeStr song.artist
  (ng == nt) ||
  (titleParts song.title).any (fun part =>
    decide (2 ≤ part.data.length) &&
    (ng == part ||
      decide (levenshteinDistance ng.data part.data ≤ max 1 (part.data.length / 4)))) ||
  (ng == na) ||
  decide (levenshteinDistance ng.data na.data ≤ max 1 (na.data.length / 4)) ||
  decide (levenshteinDistance ng.data nt.data ≤ max 1 (nt.data.length / 4)) ||
  (occursIn ng.data nt.data && decide (3 ≤ ng.data.length)) ||
  occursIn nt.data ng.data

theorem normalizeStr_empty : normalizeStr (String.mk []) = String.mk [] := rfl

theorem levRows_nil_singleton : ∀ (bs : List Char) (i x : ℕ),
    levRows [] bs i [x] = [if bs.length = 0 then x else i + bs.length - 1] := by
  intro bs
  induction bs with
  | nil => intro i x; simp [levRows]
  | cons bc brest ih =>
    intro i x
    show levRows [] brest (i + 1) (i :: levRowAux bc [] (([x] : List ℕ).headD 0)
      (([x] : List ℕ).tailD []) i) = _
    simp only [levRowAux]
    rw [ih]
    cases brest with
    | nil => simp
    | cons b2 brest2 =>
      have hlen : ((b2 :: brest2 : List Char)).length ≠ 0 := by simp
      have hlen2 : ((bc :: b2 :: brest2 : List Char)).length ≠ 0 := by simp
      rw [if_neg hlen, if_neg hlen2]
      simp only [List.length_cons]
      congr 1
      omega

theorem levenshteinDistance_nil_left (b : List Char) :
    levenshteinDistance [] b = b.length := by
  have hr : List.range (List.length ([] : List Char) + 1) = [0] := rfl
  unfold levenshteinDistance
  rw [hr, levRows_nil_singleton]
  cases b with
  | nil => simp
  | cons bc brest =>
    have hlen : ((bc :: brest : List Char)).length ≠ 0 := by simp
    rw [if_neg hlen]
    show 1 + (brest.length + 1) - 1 = (bc :: brest : List Char).length
    simp only [List.length_cons]
    omega

/-! ### Per-lobby game operations (`GameManager` methods restricted to one lobby)

Registry-level concerns (resolving a socket id to a lobby and player id, and
the host-only permission checks) live in the `GameManager` maps; the per-lobby
operations below take the resolved player id directly.  Calls that the source
rejects with `return null` return `none`. -/

/-- The player record built by `createLobby` (host, auto-ready). -/
def initialPlayer (pid sid name : String) (av : Avatar) : Player where
  id := pid
  socketId := sid
  name := name
  avatar := av
  score := 0
  streak := 0
  isHost := true
  isReady := true
  hasGuessed := false
  lastGuessCorrect := false
  roundScore := 0

/-- The lobby built by `createLobby`. -/
def initialLobby (code pid sid name : String) (av : Avatar) (now : ℕ) : Lobby where
  code := code
  hostId := pid
  state := LobbyState.waiting
  players := [(pid, initialPlayer pid sid name av)]
  settings := defaultSettings
  songs := []
  currentRound := none
  roundHistory := []
  createdAt := now

/-- The player record built by `joinLobby` (non-host, not ready). -/
def joinedPlayer (pid sid name : String) (av : Avatar) : Player where
  id := pid
  socketId := sid
  name := name
  avatar := av
  score := 0
  streak := 0
  isHost := false
  isReady := false
  hasGuessed := false
  lastGuessCorrect := false
  roundScore := 0

/-- The per-lobby part of `joinLobby`: the two guard checks after the lobby
has been found, then the insertion of the new player. -/
def joinPlayerL (pid sid name : String) (av : Avatar) (lobby : Lobby) : Option Lobby :=
  if lobby.state ≠ LobbyState.waiting then none
  else if lobby.settings.maxPlayers ≤ lobby.players.length then none
  else some { lobby with players := aset pid (joinedPlayer pid sid name av) lobby.players }

/-- The per-lobby part of `leaveLobby` / host transfer: remove the player;
if they were host, promote the first remaining player (`Object.keys(...)[0]`)
and update `hostId`. -/
def removePlayerL (pid : String) (lobby : Lobby) : Lobby :=
  let wasHost := ((alookup pid lobby.players).map Player.isHost).getD false
  let players1 := aremove pid lobby.players
  if wasHost then
    let newHostId := (players1.map Prod.fst).headD (String.mk [])
    let players2 := match alookup newHostId players1 with
      | some p => aset newHostId { p with isHost := true } players1
      | none => players1
    { lobby with players := players2, hostId := newHostId }
  else { lobby with players := players1 }

/-- The per-lobby part of `kickPlayer`: the target must exist and must not be
the host. -/
def kickPlayerL (targetId : String) (lobby : Lobby) : Option Lobby :=
  match alookup targetId lobby.players with
  | none => none
  | some target =>
    if target.isHost then none
    else some { lobby with players := aremove targetId lobby.players }

/-- `toggleReady` restricted to one lobby: flip the caller's ready flag. -/
def toggleReadyL (pid : String) (lobby : Lobby) : Option Lobby :=
  match alookup pid lobby.players with
  | none => none
  | some p => some { lobby with players := aset pid { p with isReady := !p.isReady } lobby.players }

/-- `Partial<GameSettings>`: each field optionally present. -/
structure SettingsPatch where
  mode : Option GameMode
  guessStyle : Option GuessStyle
  rounds : Option ℕ
  timePerRound : Option ℕ
  snippetDuration : Option ℕ
  maxPlayers : Option ℕ
  hintsEnabled : Option Bool
  showArtist : Option Bool
  scoreMultiplierSpeed : Option Bool
deriving DecidableEq

/-- The spread merge `{ ...lobby.settings, ...settings }` in `updateSettings`. -/
def mergeSettings (s : GameSettings) (p : SettingsPatch) : GameSettings where
  mode := p.mode.getD s.mode
  guessStyle := p.guessStyle.getD s.guessStyle
  rounds := p.rounds.getD s.rounds
  timePerRound := p.timePerRound.getD s.timePerRound
  snippetDuration := p.snippetDuration.getD s.snippetDuration
  maxPlayers := p.maxPlayers.getD s.maxPlayers
  hintsEnabled := p.hintsEnabled.getD s.hintsEnabled
  showArtist := p.showArtist.getD s.showArtist
  scoreMultiplierSpeed := p.scoreMultiplierSpeed.getD s.scoreMultiplierSpeed

/-- `updateSettings` restricted to one lobby (the host check is a registry
concern); note the source has no lobby-state guard here. -/
def updateSettingsL (p : SettingsPatch) (lobby : Lobby) : Lobby :=
  { lobby with settings := mergeSettings lobby.settings p }

/-- `addSong` restricted to one lobby; the fresh `nanoid` is the `id` already
present on `song`. -/
def addSongL (song : Song) (lobby : Lobby) : Lobby :=
  { lobby with songs := lobby.songs ++ [song] }

/-- `addSongsBulk` restricted to one lobby. -/
def addSongsBulkL (songs : List Song) (lobby : Lobby) : Lobby :=
  { lobby with songs := lobby.songs ++ songs }

/-- `removeSong` restricted to one lobby. -/
def removeSongL (songId : String) (lobby : Lobby) : Lobby :=
  { lobby with songs := lobby.songs.filter (fun s => s.id ≠ songId) }

/-- The `{can, reason?}` result of `canStartGame`. -/
structure StartCheck where
  can : Bool
  reason : Option String
deriving DecidableEq

/-- `GameManager.canStartGame`. -/
def canStartGame (lobby : Lobby) : StartCheck :=
  let players := lobby.players.map Prod.snd
  if players.length < 1 then { can := false, reason := some "Need at least 1 player" }
  else if lobby.songs.length < 3 then { can := false, reason := some "Need at least 3 songs" }
  else
    let notReady := players.filter (fun p => !p.isReady && !p.isHost)
    if 0 < notReady.length then { can := false, reason := some "Not all players are ready" }
    else { can := true, reason := none }

/-- `startGame` restricted to one lobby (host check is a registry concern):
reset all players, clear history, clamp `settings.rounds` to the pool size,
enter the `playing` state. -/
def startGameL (lobby : Lobby) : Option Lobby :=
  if (canStartGame lobby).can = false then none
  else some { lobby with
    players := lobby.players.map (fun qp => (qp.1, { qp.2 with
      score := 0, streak := 0, hasGuessed := false, lastGuessCorrect := false, roundScore := 0 }))
    state := LobbyState.playing
    roundHistory := []
    currentRound := none
    settings := { lobby.settings with rounds := min lobby.settings.rounds lobby.songs.length } }

/-- `GameManager.startRound`.  `pick` stands for the `Math.random()` draw for
the song (the source picks `floor(random * available.length)`, i.e. an
arbitrary valid index, modelled as `pick % available.length`); `shuffleSongs`
and `shuffleOpts` stand for the two random `sort` shuffles building the decoy
option set. -/
def startRoundL (pick : ℕ) (shuffleSongs : List Song → List Song)
    (shuffleOpts : List String → List String) (now : ℕ) (lobby : Lobby) :
    Option (RoundState × Lobby) :=
  if lobby.state ≠ LobbyState.playing then none
  else
    let roundNumber := lobby.roundHistory.length + 1
    if lobby.settings.rounds < roundNumber then none
    else
      let usedSongIds := lobby.roundHistory.map (fun r => r.song.id)
      let availableSongs := lobby.songs.filter (fun s => !(usedSongIds.contains s.id))
      if h : availableSongs.length = 0 then none
      else
        let song := availableSongs.get
          ⟨pick % availableSongs.length, Nat.mod_lt pick (Nat.pos_of_ne_zero h)⟩
        let players' := lobby.players.map (fun qp => (qp.1, { qp.2 with
          hasGuessed := false, lastGuessCorrect := false, roundScore := 0 }))
        let gridOptions : Option (List String) :=
          if lobby.settings.guessStyle = GuessStyle.grid ∨
             lobby.settings.guessStyle = GuessStyle.multipleChoice then
            let otherSongs := lobby.songs.filter (fun s => s.id ≠ song.id)
            let shuffled := shuffleSongs otherSongs
            let decoys := shuffled.take
              (if lobby.settings.guessStyle = GuessStyle.grid then 8 else 3)
            some (shuffleOpts (decoys.map (fun s => s.title) ++ [song.title]))
          else none
        let round : RoundState :=
          { roundNumber := roundNumber
            song := song
            startedAt := now
            phase := Phase.playing
            guesses := []
            gridOptions := gridOptions }
        some (round, { lobby with players := players', currentRound := some round })

/-- The `timeBonus` term of the score: `speedOn ? max(0, floor((1 -
elapsed/timePerRound) * 500)) : 0`, over exact rationals. -/
def timeBonusCalc (speedOn : Bool) (elapsed : ℚ) (timePerRound : ℕ) : ℕ :=
  if speedOn then (max 0 ⌊(1 - elapsed / (timePerRound : ℚ)) * 500⌋).toNat else 0

/-- The non-null result of `submitGuess`. -/
structure SubmitResult where
  correct : Bool
  score : ℕ
  playerId : String
  allGuessed : Bool
deriving DecidableEq

/-- `GameManager.submitGuess` restricted to one lobby, with the caller already
resolved to `pid`.  Returns `none` exactly when the source returns `null`
(no active round, unknown player, or the player has already guessed); on
success returns the result object and the updated lobby. -/
def submitGuessL (now : ℕ) (pid guess : String) (lobby : Lobby) :
    Option (SubmitResult × Lobby) :=
  match lobby.currentRound with
  | none => none
  | some round =>
    match alookup pid lobby.players with
    | none => none
    | some player =>
      if player.hasGuessed then none
      else
        let timeElapsed : ℚ := ((now : ℚ) - (round.startedAt : ℚ)) / 1000
        let correct := checkGuess guess round.song
        let score := if correct then
            1000 + timeBonusCalc lobby.settings.scoreMultiplierSpeed timeElapsed
              lobby.settings.timePerRound + player.streak * 100
          else 0
        let player' := if correct then
            { player with
              streak := player.streak + 1
              score := player.score + score
              hasGuessed := true
              lastGuessCorrect := correct
              roundScore := score }
          else
            { player with
              streak := 0
              hasGuessed := true
              lastGuessCorrect := correct
              roundScore := score }
        let record : GuessRecord :=
          { guess := guess, correct := correct, time := timeElapsed, score := score }
        let round' := { round with guesses := aset pid record round.guesses }
        let players' := aset pid player' lobby.players
        let allGuessed := players'.all (fun qp => qp.2.hasGuessed)
        some ({ correct := correct, score := score, playerId := pid, allGuessed := allGuessed },
          { lobby with players := players', currentRound := some round' })

/-- The non-null result of `endRound`: revealed song, cumulative score
snapshot keyed by player `id`, the per-player guess records, and the
game-over flag. -/
structure EndRoundResult where
  song : Song
  scores : List (String × ℕ)
  guesses : List (String × GuessRecord)
  isGameOver : Bool
deriving DecidableEq

/-- `GameManager.endRound` restricted to one lobby: archive the round with
`phase = reveal`, snapshot scores, set `game_over` when the history has
reached `settings.rounds`, clear `currentRound`. -/
def endRoundL (lobby : Lobby) : Option (EndRoundResult × Lobby) :=
  match lobby.currentRound with
  | none => none
  | some round =>
    let round' := { round with phase := Phase.reveal }
    let history' := lobby.roundHistory ++ [round']
    let scores := lobby.players.map (fun qp => (qp.2.id, qp.2.score))
    let isGameOver := lobby.settings.rounds ≤ history'.length
    some ({ song := round'.song
            scores := scores
            guesses := round'.guesses
            isGameOver := isGameOver },
      { lobby with
        roundHistory := history'
        state := if isGameOver then LobbyState.gameOver else lobby.state
        currentRound := none })

/-- `GameManager.resetLobby` restricted to one lobby. -/
def resetLobbyL (lobby : Lobby) : Lobby :=
  { lobby with
    state := LobbyState.waiting
    currentRound := none
    roundHistory := []
    players := lobby.players.map (fun qp => (qp.1, { qp.2 with
      score := 0, streak := 0, isReady := qp.2.isHost
      hasGuessed := false, lastGuessCorrect := false, roundScore := 0 })) }

/-! ### The lobby registry (`GameManager` state and registry-level operations) -/

/-- The mutable state of the `GameManager` singleton: the lobby map and the
two connection indices (`socketId → lobbyCode`, `socketId → playerId`). -/
structure GameManager where
  lobbies : List (String × Lobby)
  playerToLobby : List (String × String)
  playerIds : List (String × String)
deriving DecidableEq

/-- JS `String.prototype.toUpperCase` on the ASCII code alphabet. -/
def upperStr (s : String) : String := ⟨s.data.map Char.toUpper⟩

/-- The named failures of `joinLobby` (the source throws `Error('Lobby not
found')`, `Error('Game already in progress')`, `Error('Lobby is full')`, in
that order). -/
inductive JoinError where
  | lobbyNotFound
  | gameInProgress
  | lobbyFull
deriving DecidableEq

/-- `GameManager.joinLobby`: case-insensitive lookup, the two guards in
source order, then insertion of the new non-host player and both
connection-index entries.  `pid` models the fresh `nanoid(12)`. -/
def joinLobby (gm : GameManager) (code sid name : String) (av : Avatar) (pid : String) :
    Except JoinError (GameManager × Lobby × String) :=
  let key := upperStr code
  match alookup key gm.lobbies with
  | none => Except.error JoinError.lobbyNotFound
  | some lobby =>
    if lobby.state ≠ LobbyState.waiting then Except.error JoinError.gameInProgress
    else if lobby.settings.maxPlayers ≤ lobby.players.length then Except.error JoinError.lobbyFull
    else
      let player := joinedPlayer pid sid name av
      let lobby' := { lobby with players := aset pid player lobby.players }
      let gm' : GameManager :=
        { lobbies := aset key lobby' gm.lobbies
          playerToLobby := aset sid key gm.playerToLobby
          playerIds := aset sid pid gm.playerIds }
      Except.ok (gm', lobby', pid)

/-- The non-null result of `leaveLobby`: the surviving lobby (or `none` when
it was deleted), the leaver's player id, and whether they were host. -/
structure LeaveResult where
  lobby : Option Lobby
  playerId : String
  wasHost : Bool
deriving DecidableEq

/-- `GameManager.leaveLobby`: resolve the connection, remove the player and
both index entries; delete the lobby when it becomes empty, else transfer
host status to the first remaining player if the leaver was host. -/
def leaveLobby (gm : GameManager) (sid : String) : GameManager × Option LeaveResult :=
  match alookup sid gm.playerToLobby, alookup sid gm.playerIds with
  | some code, some pid =>
    (match alookup code gm.lobbies with
     | some lobby =>
       let wasHost := ((alookup pid lobby.players).map Player.isHost).getD false
       let players1 := aremove pid lobby.players
       let ptl := aremove sid gm.playerToLobby
       let pids := aremove sid gm.playerIds
       if players1.isEmpty then
         ({ lobbies := aremove code gm.lobbies, playerToLobby := ptl, playerIds := pids },
          some { lobby := none, playerId := pid, wasHost := wasHost })
       else if wasHost then
         let newHostId := (players1.map Prod.fst).headD (String.mk [])
         let players2 := match alookup newHostId players1 with
           | some p => aset newHostId { p with isHost := true } players1
           | none => players1
         let lobby' := { lobby with players := players2, hostId := newHostId }
         ({ lobbies := aset code lobby' gm.lobbies, playerToLobby := ptl, playerIds := pids },
          some { lobby := some lobby', playerId := pid, wasHost := wasHost })
       else
         let lobby' := { lobby with players := players1 }
         ({ lobbies := aset code lobby' gm.lobbies, playerToLobby := ptl, playerIds := pids },
          some { lobby := some lobby', playerId := pid, wasHost := wasHost })
     | none => (gm, none))
  | _, _ => (gm, none)

/-- The code alphabet of `generateCode`: 32 characters, excluding the
easily-confused `I`, `O`, `0`, `1`. -/
def codeAlphabet : List Char := String.data "ABCDEFGHJKLMNPQRSTUVWXYZ23456789"

/-- One alphabet character, from one `Math.floor(Math.random() * 32)` draw. -/
def codeChar (n : Fin 32) : Char :=
  codeAlphabet.get ⟨n.val, by
    have h : codeAlphabet.length = 32 := rfl
    have h2 := n.isLt
    omega⟩

/-- One 5-character attempt of `generateCode`, from draws
`randoms (5k) .. randoms (5k+4)`. -/
def oneCode (randoms : ℕ → Fin 32) (k : ℕ) : String :=
  ⟨(List.range 5).map (fun i => codeChar (randoms (5 * k + i)))⟩

/-- `GameManager.generateCode`: build a 5-character code and retry (the
source recurses) while it collides with a live lobby code.  The unbounded
recursion on fresh randomness is modelled with explicit `fuel`; `k` counts
the attempts already made. -/
def generateCode (lobbies : List (String × Lobby)) (randoms : ℕ → Fin 32) :
    ℕ → ℕ → Option String
  | 0, _ => none
  | fuel + 1, k =>
    let code := oneCode randoms k
    if (alookup code lobbies).isSome then generateCode lobbies randoms fuel (k + 1)
    else some code


/-! ### Operation traces on a single lobby

`Step free l l'` says one `GameManager` operation can turn lobby `l` into
`l'`.  With `free = true`, `updateSettings` is available in any lobby state
(as in the source, which has no state guard on it); with `free = false` it is
restricted to the `waiting` state.  `ReachL free l` says `l` is reachable
from a freshly created lobby by some sequence of operations. -/

inductive Step (free : Bool) : Lobby → Lobby → Prop where
  | join (pid sid name : String) (av : Avatar) (l l' : Lobby)
      (h : joinPlayerL pid sid name av l = some l') : Step free l l'
  | leave (pid : String) (l : Lobby) (h : (removePlayerL pid l).players ≠ []) :
      Step free l (removePlayerL pid l)
  | kick (targetId : String) (l l' : Lobby) (h : kickPlayerL targetId l = some l') : Step free l l'
  | ready (pid : String) (l l' : Lobby) (h : toggleReadyL pid l = some l') : Step free l l'
  | settings (p : SettingsPatch) (l : Lobby)
      (h : free = true ∨ l.state = LobbyState.waiting) : Step free l (updateSettingsL p l)
  | addSong (song : Song) (l : Lobby) : Step free l (addSongL song l)
  | addSongsBulk (songs : List Song) (l : Lobby) : Step free l (addSongsBulkL songs l)
  | removeSong (songId : String) (l : Lobby) : Step free l (removeSongL songId l)
  | startGame (l l' : Lobby) (h : startGameL l = some l') : Step free l l'
  | startRound (pick : ℕ) (shs : List Song → List Song) (sho : List String → List String)
      (now : ℕ) (l : Lobby) (r : RoundState) (l' : Lobby)
      (h : startRoundL pick shs sho now l = some (r, l')) : Step free l l'
  | submitGuess (now : ℕ) (pid guess : String) (l : Lobby) (res : SubmitResult) (l' : Lobby)
      (h : submitGuessL now pid guess l = some (res, l')) : Step free l l'
  | endRound (l : Lobby) (res : EndRoundResult) (l' : Lobby)
      (h : endRoundL l = some (res, l')) : Step free l l'
  | reset (l : Lobby) : Step free l (resetLobbyL l)

inductive ReachL (free : Bool) : Lobby → Prop where
  | init (code pid sid name : String) (av : Avatar) (now : ℕ) :
      ReachL free (initialLobby code pid sid name av now)
  | step (l l' : Lobby) (h : ReachL free l) (hs : Step free l l') : ReachL free l'

/-- The round-count invariant: history never exceeds the configured round
count, an active round implies strictly fewer archived rounds than the
count (and the `playing` state), a `waiting` lobby has an empty history, and
`game_over` pins the history length to the count. -/
def RoundInv (l : Lobby) : Prop :=
  l.roundHistory.length ≤ l.settings.rounds ∧
  (∀ r, l.currentRound = some r →
    l.roundHistory.length < l.settings.rounds ∧ l.state = LobbyState.playing) ∧
  (l.state = LobbyState.waiting → l.roundHistory = []) ∧
  (l.state = LobbyState.gameOver → l.roundHistory.length = l.settings.rounds)

theorem inv_frame {l l' : Lobby} (h : RoundInv l)
    (hst : l'.state = l.state) (hhist : l'.roundHistory = l.roundHistory)
    (hcur : l'.currentRound = l.currentRound) (hset : l'.settings.rounds = l.settings.rounds) :
    RoundInv l' := by
  obtain ⟨h1, h2, h3, h4⟩ := h
  refine ⟨?_, ?_, ?_, ?_⟩
  · rw [hhist, hset]; exact h1
  · intro r hr
    rw [hhist, hset, hst]
    exact h2 r (hcur ▸ hr)
  · intro hw
    rw [hhist]
    exact h3 (hst ▸ hw)
  · intro hg
    rw [hhist, hset]
    exact h4 (hst ▸ hg)

theorem joinPlayerL_shape {pid sid name : String} {av : Avatar} {l l' : Lobby}
    (h : joinPlayerL pid sid name av l = some l') :
    l' = { l with players := aset pid (joinedPlayer pid sid name av) l.players } := by
  unfold joinPlayerL at h
  split at h
  · exact Option.noConfusion h
  · split at h
    · exact Option.noConfusion h
    · injection h with h2
      exact h2.symm

theorem removePlayerL_frame (pid : String) (l : Lobby) :
    (removePlayerL pid l).state = l.state ∧
    (removePlayerL pid l).roundHistory = l.roundHistory ∧
    (removePlayerL pid l).currentRound = l.currentRound ∧
    (removePlayerL pid l).settings = l.settings := by
  simp only [removePlayerL]
  split
  · exact ⟨rfl, rfl, rfl, rfl⟩
  · exact ⟨rfl, rfl, rfl, rfl⟩

theorem kickPlayerL_shape {targetId : String} {l l' : Lobby}
    (h : kickPlayerL targetId l = some l') :
    l' = { l with players := aremove targetId l.players } := by
  unfold kickPlayerL at h
  split at h
  · exact Option.noConfusion h
  · split at h
    · exact Option.noConfusion h
    · injection h with h2
      exact h2.symm

theorem toggleReadyL_frame {pid : String} {l l' : Lobby}
    (h : toggleReadyL pid l = some l') :
    l'.state = l.state ∧ l'.roundHistory = l.roundHistory ∧
    l'.currentRound = l.currentRound ∧ l'.settings = l.settings := by
  unfold toggleReadyL at h
  split at h
  · exact Option.noConfusion h
  · injection h with h2
    rw [← h2]
    exact ⟨rfl, rfl, rfl, rfl⟩

theorem startGameL_shape {l l' : Lobby} (h : startGameL l = some l') :
    l'.state = LobbyState.playing ∧ l'.roundHistory = [] ∧ l'.currentRound = none := by
  unfold startGameL at h
  split at h
  · exact Option.noConfusion h
  · injection h with h2
    rw [← h2]
    exact ⟨rfl, rfl, rfl⟩

theorem startRoundL_shape {pick : ℕ} {shs : List Song → List Song}
    {sho : List String → List String} {now : ℕ} {l : Lobby} {r : RoundState} {l' : Lobby}
    (h : startRoundL pick shs sho now l = some (r, l')) :
    l.state = LobbyState.playing ∧ l.roundHistory.length < l.settings.rounds ∧
    l'.state = l.state ∧ l'.roundHistory = l.roundHistory ∧
    l'.settings = l.settings ∧ l'.currentRound = some r := by
  simp only [startRoundL] at h
  split at h
  · exact Option.noConfusion h
  next hstate =>
    split at h
    · exact Option.noConfusion h
    next hrounds =>
      split at h
      · exact Option.noConfusion h
      next hava =>
        rw [Option.some.injEq, Prod.mk.injEq] at h
        obtain ⟨hr, hl⟩ := h
        subst hr
        subst hl
        refine ⟨not_not.1 hstate, by omega, rfl, rfl, rfl, rfl⟩

theorem submitGuessL_shape {now : ℕ} {pid guess : String} {l : Lobby}
    {res : SubmitResult} {l' : Lobby}
    (h : submitGuessL now pid guess l = some (res, l')) :
    ∃ round round', l.currentRound = some round ∧
      l'.state = l.state ∧ l'.roundHistory = l.roundHistory ∧
      l'.settings = l.settings ∧ l'.currentRound = some round' := by
  simp only [submitGuessL] at h
  split at h
  · exact Option.noConfusion h
  next round heq =>
    split at h
    · exact Option.noConfusion h
    next player hpl =>
      split at h
      · exact Option.noConfusion h
      · rw [Option.some.injEq, Prod.mk.injEq] at h
        obtain ⟨hres, hl⟩ := h
        subst hl
        exact ⟨round, _, heq, rfl, rfl, rfl, rfl⟩

theorem endRoundL_shape {l : Lobby} {res : EndRoundResult} {l' : Lobby}
    (h : endRoundL l = some (res, l')) :
    ∃ round, l.currentRound = some round ∧
      l'.roundHistory.length = l.roundHistory.length + 1 ∧
      l'.settings = l.settings ∧ l'.currentRound = none ∧
      l'.state = (if l.settings.rounds ≤ l.roundHistory.length + 1 then LobbyState.gameOver
        else l.state) := by
  simp only [endRoundL] at h
  split at h
  · exact Option.noConfusion h
  next round heq =>
    rw [Option.some.injEq, Prod.mk.injEq] at h
    obtain ⟨hres, hl⟩ := h
    subst hl
    refine ⟨round, heq, by simp, rfl, rfl, by simp⟩

theorem inv_step {l l' : Lobby} (hinv : RoundInv l) (hs : Step false l l') : RoundInv l' := by
  cases hs with
  | join pid sid name av _ _ h =>
    rw [joinPlayerL_shape h]
    exact inv_frame hinv rfl rfl rfl rfl
  | leave pid _ h =>
    obtain ⟨f1, f2, f3, f4⟩ := removePlayerL_frame pid l
    exact inv_frame hinv f1 f2 f3 (by rw [f4])
  | kick targetId _ _ h =>
    rw [kickPlayerL_shape h]
    exact inv_frame hinv rfl rfl rfl rfl
  | ready pid _ _ h =>
    obtain ⟨f1, f2, f3, f4⟩ := toggleReadyL_frame h
    exact inv_frame hinv f1 f2 f3 (by rw [f4])
  | settings p _ h =>
    obtain ⟨h1, h2, h3, h4⟩ := hinv
    have hw : l.state = LobbyState.waiting := by
      rcases h with h | h
      · exact Bool.noConfusion h
      · exact h
    have hhist : l.roundHistory = [] := h3 hw
    refine ⟨?_, ?_, ?_, ?_⟩
    · show l.roundHistory.length ≤ (mergeSettings l.settings p).rounds
      rw [hhist]
      exact Nat.zero_le _
    · intro r hr
      obtain ⟨_, hp⟩ := h2 r hr
      rw [hw] at hp
      exact LobbyState.noConfusion hp
    · intro _
      exact hhist
    · intro hg
      have hg' : l.state = LobbyState.gameOver := hg
      rw [hw] at hg'
      exact LobbyState.noConfusion hg'
  | addSong song _ =>
    exact inv_frame hinv rfl rfl rfl rfl
  | addSongsBulk songs _ =>
    exact inv_frame hinv rfl rfl rfl rfl
  | removeSong songId _ =>
    exact inv_frame hinv rfl rfl rfl rfl
  | startGame _ _ h =>
    obtain ⟨s1, s2, s3⟩ := startGameL_shape h
    refine ⟨?_, ?_, ?_, ?_⟩
    · rw [s2]
      exact Nat.zero_le _
    · intro r hr
      rw [s3] at hr
      exact Option.noConfusion hr
    · intro hw
      rw [s1] at hw
      exact LobbyState.noConfusion hw
    · intro hg
      rw [s1] at hg
      exact LobbyState.noConfusion hg
  | startRound pick shs sho now _ r _ h =>
    obtain ⟨s1, s2, s3, s4, s5, s6⟩ := startRoundL_shape h
    refine ⟨?_, ?_, ?_, ?_⟩
    · rw [s4, s5]
      exact Nat.le_of_lt s2
    · intro r0 _
      rw [s4, s5, s3, s1]
      exact ⟨s2, rfl⟩
    · intro hw
      rw [s3, s1] at hw
      exact LobbyState.noConfusion hw
    · intro hg
      rw [s3, s1] at hg
      exact LobbyState.noConfusion hg
  | submitGuess now pid guess _ res _ h =>
    obtain ⟨round, round', heq, f1, f2, f3, f4⟩ := submitGuessL_shape h
    obtain ⟨h1, h2, h3, h4⟩ := hinv
    obtain ⟨hlt, hpl⟩ := h2 round heq
    refine ⟨?_, ?_, ?_, ?_⟩
    · rw [f2, f3]
      exact h1
    · intro r0 _
      rw [f2, f3, f1, hpl]
      exact ⟨hlt, rfl⟩
    · intro hw
      rw [f1, hpl] at hw
      exact LobbyState.noConfusion hw
    · intro hg
      rw [f1, hpl] at hg
      exact LobbyState.noConfusion hg
  | endRound _ res _ h =>
    obtain ⟨round, heq, f1, f2, f3, f4⟩ := endRoundL_shape h
    obtain ⟨h1, h2, h3, h4⟩ := hinv
    obtain ⟨hlt, hpl⟩ := h2 round heq
    refine ⟨?_, ?_, ?_, ?_⟩
    · rw [f1, f2]
      omega
    · intro r0 hr0
      rw [f3] at hr0
      exact Option.noConfusion hr0
    · intro hw
      rw [f4] at hw
      split at hw
      · exact LobbyState.noConfusion hw
      · rw [hpl] at hw
        exact LobbyState.noConfusion hw
    · intro hg
      rw [f4] at hg
      rw [f1, f2]
      split at hg
      · omega
      · rw [hpl] at hg
        exact LobbyState.noConfusion hg
  | reset _ =>
    refine ⟨?_, ?_, ?_, ?_⟩
    · exact Nat.zero_le _
    · intro r hr
      exact Option.noConfusion hr
    · intro _
      rfl
    · intro hg
      exact LobbyState.noConfusion hg

theorem reach_inv {l : Lobby} (h : ReachL false l) : RoundInv l := by
  induction h with
  | init code pid sid name av now =>
    refine ⟨?_, ?_, ?_, ?_⟩
    · exact Nat.zero_le _
    · intro r hr
      exact Option.noConfusion hr
    · intro _
      rfl
    · intro hg
      exact LobbyState.noConfusion hg
  | step lprev lcur hr hs ih =>
    exact inv_step ih hs

/-! ### Concrete fixtures used by witnesses and counterexamples -/

def demoAvatar : Avatar where
  emoji := "A"
  color := "red"

/-- Song fixture builder: only `id`, `title`, `artist` matter to the claims. -/
def mkSong (i t a : String) : Song where
  id := i
  title := t
  artist := a
  album := none
  coverUrl := none
  source := SongSource.youtube
  sourceId := i
  duration := 180
  previewUrl := none
  startTime := 0
  endTime := 5

theorem normalizeStr_empty_data : (normalizeStr (String.mk [])).data = [] := rfl

/-! ### C9: canStartGame -/

/-- C9: `canStartGame` returns true iff the lobby has at least 1 player, at
least 3 songs in the pool, and every non-host player is ready. -/
theorem canStartGame_iff (l : Lobby) :
    (canStartGame l).can = true ↔
      (1 ≤ l.players.length ∧ 3 ≤ l.songs.length ∧
        ∀ p ∈ l.players.map Prod.snd, p.isHost = false → p.isReady = true) := by
  simp only [canStartGame]
  split
  next hA =>
    rw [List.length_map] at hA
    constructor
    · intro h
      exact Bool.noConfusion h
    · rintro ⟨hR1, -, -⟩
      omega
  next hA =>
    rw [List.length_map] at hA
    split
    next hB =>
      constructor
      · intro h
        exact Bool.noConfusion h
      · rintro ⟨-, hR2, -⟩
        omega
    next hB =>
      split
      next hC =>
        constructor
        · intro h
          exact Bool.noConfusion h
        · rintro ⟨-, -, hR3⟩
          obtain ⟨p, hpmem⟩ :=
            List.exists_mem_of_length_pos hC
          obtain ⟨hpin, hpred⟩ := List.mem_filter.1 hpmem
          simp only [Bool.and_eq_true, Bool.not_eq_true'] at hpred
          obtain ⟨hready, hhost⟩ := hpred
          rw [hR3 p hpin hhost] at hready
          exact Bool.noConfusion hready
      next hC =>
        constructor
        · intro _
          refine ⟨by omega, by omega, ?_⟩
          intro p hpin hhost
          have hnil : (List.filter (fun p => !p.isReady && !p.isHost)
              (l.players.map Prod.snd)).length = 0 := by omega
          rw [List.length_eq_zero] at hnil
          have := List.filter_eq_nil_iff.1 hnil p hpin
          simp only [Bool.and_eq_true, Bool.not_eq_true', not_and] at this
          rcases Bool.eq_false_or_eq_true p.isReady with hr | hr
          · exact hr
          · exact absurd hhost (this hr)
        · intro _
          rfl

/-! ### C8: generateCode -/

/-- C8: every code returned by `generateCode` is 5 characters long, each
drawn from the fixed 32-character alphabet, and distinct from every live
lobby code (generation retries on collision). -/
theorem generateCode_spec (lobbies : List (String × Lobby)) (randoms : ℕ → Fin 32) :
    ∀ fuel k c, generateCode lobbies randoms fuel k = some c →
      c.data.length = 5 ∧ (∀ ch ∈ c.data, ch ∈ codeAlphabet) ∧
      ∀ q ∈ lobbies, q.1 ≠ c := by
  intro fuel
  induction fuel with
  | zero =>
    intro k c h
    exact Option.noConfusion h
  | succ n ih =>
    intro k c h
    simp only [generateCode] at h
    split at h
    · exact ih (k + 1) c h
    next hns =>
      rw [Option.some.injEq] at h
      subst h
      refine ⟨?_, ?_, ?_⟩
      · simp [oneCode]
      · intro ch hch
        simp only [oneCode] at hch
        obtain ⟨i, hi, hc⟩ := List.mem_map.1 hch
        rw [← hc]
        unfold codeChar
        exact List.get_mem _ _ _
      · have hnone : alookup (oneCode randoms k) lobbies = none :=
          Option.not_isSome_iff_eq_none.1 hns
        intro q hq
        exact (alookup_none_iff _ _).1 hnone q hq

/-- C8 witness: with an empty registry and the constant draw `0`, one unit
of fuel returns the code `AAAAA`, which satisfies all three properties. -/
theorem generateCode_spec_witness :
    (String.data "AAAAA").length = 5 ∧
    (∀ ch ∈ String.data "AAAAA", ch ∈ codeAlphabet) ∧
    ∀ q ∈ ([] : List (String × Lobby)), q.1 ≠ "AAAAA" :=
  generateCode_spec [] (fun _ => (⟨0, by omega⟩ : Fin 32)) 1 0 "AAAAA" (by decide)

/-! ### C10: the empty guess is accepted against one-character metadata -/

/-- C10: for any song whose normalized artist (or normalized title) is a
single character, the empty guess matches: the edit-distance threshold has a
floor of 1 and the distance from the empty string to a 1-character string
is 1. -/
theorem emptyGuess_accepted (song : Song)
    (h : (normalizeStr song.artist).data.length = 1 ∨
      (normalizeStr song.title).data.length = 1) :
    checkGuess (String.mk []) song = true := by
  unfold checkGuess
  simp only [Bool.or_eq_true, decide_eq_true_eq]
  rcases h with h | h
  · refine Or.inl (Or.inl (Or.inl (Or.inr ?_)))
    obtain ⟨c, hc⟩ := List.length_eq_one.1 h
    rw [normalizeStr_empty_data, hc, levenshteinDistance_nil_left]
    simp
  · refine Or.inl (Or.inl (Or.inr ?_))
    obtain ⟨c, hc⟩ := List.length_eq_one.1 h
    rw [normalizeStr_empty_data, hc, levenshteinDistance_nil_left]
    simp

def c10Song : Song := mkSong "c10" "some title" "x"

/-- C10 witness: the artist `x` normalizes to the single character `x`, and
the empty guess is accepted. -/
theorem emptyGuess_accepted_witness : checkGuess (String.mk []) c10Song = true :=
  emptyGuess_accepted c10Song (Or.inl (by decide))

/-! ### C2: the Levenshtein acceptance threshold on the full title -/

/-- C2 (amended): for a song whose normalized title has length ≥ 5, a guess
within Levenshtein distance `max(1, floor(title_length * 0.25))` of the
normalized title is accepted; a guess at distance exactly one more than the
threshold is rejected provided it does not match through any of the other
rules (exact title equality, a title-part match, an artist match, or
substring containment in either direction). -/
theorem checkGuess_levenshtein_threshold (guess : String) (song : Song)
    (_hlen : 5 ≤ (normalizeStr song.title).data.length) :
    (levenshteinDistance (normalizeStr guess).data (normalizeStr song.title).data ≤
        max 1 ((normalizeStr song.title).data.length / 4) →
      checkGuess guess song = true) ∧
    ((normalizeStr guess == normalizeStr song.title) = false →
      ((titleParts song.title).any fun part =>
        decide (2 ≤ part.data.length) &&
        (normalizeStr guess == part ||
          decide (levenshteinDistance (normalizeStr guess).data part.data ≤
            max 1 (part.data.length / 4)))) = false →
      (normalizeStr guess == normalizeStr song.artist) = false →
      ¬(levenshteinDistance (normalizeStr guess).data (normalizeStr song.artist).data ≤
          max 1 ((normalizeStr song.artist).data.length / 4)) →
      occursIn (normalizeStr guess).data (normalizeStr song.title).data = false →
      occursIn (normalizeStr song.title).data (normalizeStr guess).data = false →
      levenshteinDistance (normalizeStr guess).data (normalizeStr song.title).data =
        max 1 ((normalizeStr song.title).data.length / 4) + 1 →
      checkGuess guess song = false) := by
  constructor
  · intro hd
    simp only [checkGuess, Bool.or_eq_true, decide_eq_true_eq]
    exact Or.inl (Or.inl (Or.inr hd))
  · intro hne hparts hane hadist hsub1 hsub2 hdist
    have h4 : decide (levenshteinDistance (normalizeStr guess).data
        (normalizeStr song.artist).data ≤
        max 1 ((normalizeStr song.artist).data.length / 4)) = false :=
      decide_eq_false hadist
    have h5 : decide (levenshteinDistance (normalizeStr guess).data
        (normalizeStr song.title).data ≤
        max 1 ((normalizeStr song.title).data.length / 4)) = false := by
      rw [hdist]
      exact decide_eq_false (Nat.not_succ_le_self _)
    simp only [checkGuess]
    rw [hne, hparts, hane, h4, h5, hsub1, hsub2]
    rfl

def c2Song : Song := mkSong "c2" "abcdefgh" "the weeknd"

/-- C2 counterexample to the claim as stated: for the title `abcdefgh`
(normalized length 8, threshold `max(1, 2) = 2`) the guess `abcde` sits at
distance exactly `threshold + 1 = 3`, yet `checkGuess` accepts it through
the substring rule. -/
theorem checkGuess_threshold_counterexample :
    5 ≤ (normalizeStr c2Song.title).data.length ∧
    levenshteinDistance (normalizeStr "abcde").data (normalizeStr c2Song.title).data =
      max 1 ((normalizeStr c2Song.title).data.length / 4) + 1 ∧
    checkGuess "abcde" c2Song = true := by
  decide

def c2bSong : Song := mkSong "c2b" "abcdefgh" "mmmmmmmm"

/-- C2 witness: `abcdefg` (distance 1 ≤ 2) is accepted against `abcdefgh`;
`abzzzfgh` (distance 3 = threshold + 1, no other rule applies) is
rejected against the same title with artist `mmmmmmmm`. -/
theorem checkGuess_levenshtein_threshold_witness :
    checkGuess "abcdefg" c2Song = true ∧ checkGuess "abzzzfgh" c2bSong = false := by
  constructor
  · exact (checkGuess_levenshtein_threshold "abcdefg" c2Song (by decide)).1 (by decide)
  · exact (checkGuess_levenshtein_threshold "abzzzfgh" c2bSong (by decide)).2
      (by decide) (by decide) (by decide) (by decide) (by decide) (by decide) (by decide)

theorem contains_eq_true_iff_mem (a : String) (l : List String) :
    l.contains a = true ↔ a ∈ l :=
  ⟨fun h => List.mem_of_elem_eq_true h, fun h => List.elem_eq_true_of_mem h⟩

/-! ### C4: startRound preconditions and postconditions -/

/-- C4: `startRound` returns null when the lobby is not `playing`, when the
history has reached `settings.rounds`, or when every pool song was already
used; on success the chosen song is fresh (its id is not in the history),
the round starts in the `playing` phase, and every player's per-round
scratch fields are reset. -/
theorem startRound_spec (pick : ℕ) (shs : List Song → List Song)
    (sho : List String → List String) (now : ℕ) (l : Lobby) :
    (l.state ≠ LobbyState.playing → startRoundL pick shs sho now l = none) ∧
    (l.settings.rounds ≤ l.roundHistory.length → startRoundL pick shs sho now l = none) ∧
    ((∀ s ∈ l.songs, s.id ∈ l.roundHistory.map (fun r => r.song.id)) →
      startRoundL pick shs sho now l = none) ∧
    (∀ r l', startRoundL pick shs sho now l = some (r, l') →
      r.song.id ∉ l.roundHistory.map (fun r0 => r0.song.id) ∧
      r.phase = Phase.playing ∧
      ∀ qp ∈ l'.players, qp.2.hasGuessed = false ∧ qp.2.lastGuessCorrect = false ∧
        qp.2.roundScore = 0) := by
  refine ⟨?_, ?_, ?_, ?_⟩
  · intro h
    simp only [startRoundL]
    rw [if_pos h]
  · intro h
    simp only [startRoundL]
    by_cases h0 : l.state ≠ LobbyState.playing
    · rw [if_pos h0]
    · rw [if_neg h0, if_pos (by omega : l.settings.rounds < l.roundHistory.length + 1)]
  · intro h
    have hfil : l.songs.filter
        (fun s => !((l.roundHistory.map (fun r => r.song.id)).contains s.id)) = [] := by
      rw [List.filter_eq_nil_iff]
      intro s hs
      simp only [Bool.not_eq_true', Bool.not_eq_false]
      exact (contains_eq_true_iff_mem _ _).2 (h s hs)
    simp only [startRoundL]
    by_cases h0 : l.state ≠ LobbyState.playing
    · rw [if_pos h0]
    · rw [if_neg h0]
      by_cases h1 : l.settings.rounds < l.roundHistory.length + 1
      · rw [if_pos h1]
      · rw [if_neg h1, dif_pos (by rw [hfil]; rfl)]
  · intro r l' heq
    simp only [startRoundL] at heq
    split at heq
    · exact Option.noConfusion heq
    split at heq
    · exact Option.noConfusion heq
    split at heq
    · exact Option.noConfusion heq
    next hava =>
      rw [Option.some.injEq, Prod.mk.injEq] at heq
      obtain ⟨hr, hl⟩ := heq
      subst hr
      subst hl
      refine ⟨?_, rfl, ?_⟩
      · intro hcontra
        have hct := (contains_eq_true_iff_mem _ _).2 hcontra
        have hmem := List.get_mem
          (l.songs.filter (fun s => !((l.roundHistory.map (fun r => r.song.id)).contains s.id)))
          (pick % (l.songs.filter
            (fun s => !((l.roundHistory.map (fun r => r.song.id)).contains s.id))).length)
          (Nat.mod_lt pick (Nat.pos_of_ne_zero hava))
        obtain ⟨hin, hpred⟩ := List.mem_filter.1 hmem
        simp only [Bool.not_eq_true'] at hpred
        rw [hpred] at hct
        exact Bool.noConfusion hct
      · intro qp hqp
        obtain ⟨qp0, hqp0, hqpeq⟩ := List.mem_map.1 hqp
        rw [← hqpeq]
        exact ⟨rfl, rfl, rfl⟩

def c4Waiting : Lobby := initialLobby "DDDDD" "h4" "s4" "Host" demoAvatar 0

def c4SongA : Song := mkSong "a4" "alpha" "artistone"

def c4SongB : Song := mkSong "b4" "bravo" "artisttwo"

def c4SongC : Song := mkSong "c4" "charlie" "artistthree"

def c4Playing : Lobby where
  code := "EEEEE"
  hostId := "h4"
  state := LobbyState.playing
  players := [("h4", initialPlayer "h4" "s4" "Host" demoAvatar)]
  settings := { defaultSettings with rounds := 3 }
  songs := [c4SongA, c4SongB, c4SongC]
  currentRound := none
  roundHistory := []
  createdAt := 0

def c4Round : RoundState :=
  ((startRoundL 1 (fun x => x) (fun x => x) 70 c4Playing).map Prod.fst).getD
    { roundNumber := 0, song := c4SongA, startedAt := 0, phase := Phase.reveal
      guesses := [], gridOptions := none }

def c4After : Lobby :=
  ((startRoundL 1 (fun x => x) (fun x => x) 70 c4Playing).map Prod.snd).getD c4Playing

/-- C4 witness: a waiting lobby cannot start a round; a playing 3-song lobby
starts one whose phase is `playing` and whose song is fresh. -/
theorem startRound_spec_witness :
    startRoundL 0 (fun x => x) (fun x => x) 0 c4Waiting = none ∧
    c4Round.phase = Phase.playing ∧
    c4Round.song.id ∉ c4Playing.roundHistory.map (fun r0 => r0.song.id) := by
  refine ⟨?_, ?_, ?_⟩
  · exact (startRound_spec 0 (fun x => x) (fun x => x) 0 c4Waiting).1 (by decide)
  · exact ((startRound_spec 1 (fun x => x) (fun x => x) 70 c4Playing).2.2.2
      c4Round c4After (by decide)).2.1
  · exact ((startRound_spec 1 (fun x => x) (fun x => x) 70 c4Playing).2.2.2
      c4Round c4After (by decide)).1

/-! ### C1: scoring in submitGuess -/

/-- C1: for a guess submitted while a round is active by a player who has
not yet guessed, a correct guess scores `1000 + timeBonus + 100 * streak`
(streak counted before this guess), the streak is incremented and the
points added to the cumulative score; an incorrect guess scores 0 and
resets the streak. -/
theorem submitGuess_scoring (now : ℕ) (pid guess : String) (lobby : Lobby)
    (r : RoundState) (p : Player)
    (h1 : lobby.currentRound = some r) (h2 : alookup pid lobby.players = some p)
    (h3 : p.hasGuessed = false) :
    ∃ res l', submitGuessL now pid guess lobby = some (res, l') ∧
      res.correct = checkGuess guess r.song ∧
      (res.correct = true → res.score = 1000 +
        timeBonusCalc lobby.settings.scoreMultiplierSpeed
          (((now : ℚ) - (r.startedAt : ℚ)) / 1000) lobby.settings.timePerRound +
        p.streak * 100) ∧
      (res.correct = false → res.score = 0) ∧
      ∃ p', alookup pid l'.players = some p' ∧
        (res.correct = true → p'.streak = p.streak + 1 ∧ p'.score = p.score + res.score) ∧
        (res.correct = false → p'.streak = 0 ∧ p'.score = p.score) := by
  simp only [submitGuessL, h1, h2, h3, Bool.false_eq_true, if_false]
  by_cases hc : checkGuess guess r.song = true
  · simp only [hc, if_true]
    refine ⟨_, _, rfl, rfl, ?_, ?_, ?_⟩
    · intro _
      rfl
    · intro habs
      exact Bool.noConfusion habs
    · refine ⟨_, alookup_aset_self _ _ _, ?_, ?_⟩
      · intro _
        exact ⟨rfl, rfl⟩
      · intro habs
        exact Bool.noConfusion habs
  · rw [Bool.not_eq_true] at hc
    simp only [hc, Bool.false_eq_true, if_false]
    refine ⟨_, _, rfl, rfl, ?_, ?_, ?_⟩
    · intro habs
      exact Bool.noConfusion habs
    · intro _
      rfl
    · refine ⟨_, alookup_aset_self _ _ _, ?_, ?_⟩
      · intro habs
        exact Bool.noConfusion habs
      · intro _
        exact ⟨rfl, rfl⟩

def c1Song : Song := mkSong "c1s" "hello" "artistx"

def c1Round : RoundState where
  roundNumber := 1
  song := c1Song
  startedAt := 5000
  phase := Phase.playing
  guesses := []
  gridOptions := none

def c1Player : Player where
  id := "p1"
  socketId := "s1"
  name := "Ada"
  avatar := demoAvatar
  score := 1000
  streak := 2
  isHost := true
  isReady := true
  hasGuessed := false
  lastGuessCorrect := false
  roundScore := 0

def c1Lobby : Lobby where
  code := "FFFFF"
  hostId := "p1"
  state := LobbyState.playing
  players := [("p1", c1Player)]
  settings := defaultSettings
  songs := [c1Song]
  currentRound := some c1Round
  roundHistory := []
  createdAt := 0

/-- C1 witness: with elapsed 0 (`now = startedAt`), `timePerRound = 30`,
streak 2 and the speed bonus on, a correct guess scores
`1000 + 500 + 200 = 1700`. -/
theorem submitGuess_scoring_witness :
    ((submitGuessL 5000 "p1" "hello" c1Lobby).map (fun rl => rl.1.score)) = some 1700 := by
  obtain ⟨res, l', heq, hcorr, hsc, -, -⟩ :=
    submitGuess_scoring 5000 "p1" "hello" c1Lobby c1Round c1Player rfl (by decide) rfl
  have hc : res.correct = true := by
    rw [hcorr]
    decide
  rw [heq]
  simp only [Option.map_some']
  rw [hsc hc]
  norm_num [timeBonusCalc, c1Player, c1Round, c1Lobby, defaultSettings]
  decide

/-! ### C7: at most one guess per player per round -/

/-- C7: `submitGuess` is a rejected no-op (returns null, and in this pure
embedding the lobby is unchanged) when no round is active or the player has
already guessed; on success it records the guess keyed by the player id in
the round's guess map and reports whether all current players have now
guessed. -/
theorem submitGuess_once (now : ℕ) (pid guess : String) (lobby : Lobby) :
    (lobby.currentRound = none → submitGuessL now pid guess lobby = none) ∧
    (∀ r p, lobby.currentRound = some r → alookup pid lobby.players = some p →
      p.hasGuessed = true → submitGuessL now pid guess lobby = none) ∧
    (∀ r p, lobby.currentRound = some r → alookup pid lobby.players = some p →
      p.hasGuessed = false →
      ∃ res l' r', submitGuessL now pid guess lobby = some (res, l') ∧
        l'.currentRound = some r' ∧
        alookup pid r'.guesses = some
          { guess := guess
            correct := checkGuess guess r.song
            time := ((now : ℚ) - (r.startedAt : ℚ)) / 1000
            score := res.score } ∧
        res.allGuessed = l'.players.all (fun qp => qp.2.hasGuessed)) := by
  refine ⟨?_, ?_, ?_⟩
  · intro h
    simp only [submitGuessL, h]
  · intro r p hr hp hg
    simp only [submitGuessL, hr, hp, hg, if_true]
  · intro r p hr hp hg
    simp only [submitGuessL, hr, hp, hg, Bool.false_eq_true, if_false]
    by_cases hc : checkGuess guess r.song = true
    · simp only [hc, if_true]
      exact ⟨_, _, _, rfl, rfl, alookup_aset_self _ _ _, rfl⟩
    · rw [Bool.not_eq_true] at hc
      simp only [hc, Bool.false_eq_true, if_false]
      exact ⟨_, _, _, rfl, rfl, alookup_aset_self _ _ _, rfl⟩

def c7LobbyNoRound : Lobby := { c1Lobby with currentRound := none }

/-- C7 witness: with no active round `submitGuess` returns null; in the
success case of `c1Lobby` the recorded guess is keyed by the player id. -/
theorem submitGuess_once_witness :
    submitGuessL 5000 "p1" "hello" c7LobbyNoRound = none ∧
    (∃ res l' r', submitGuessL 5000 "p1" "hello" c1Lobby = some (res, l') ∧
      l'.currentRound = some r' ∧
      alookup "p1" r'.guesses = some
        { guess := "hello"
          correct := checkGuess "hello" c1Round.song
          time := ((5000 : ℚ) - ((c1Round.startedAt : ℕ) : ℚ)) / 1000
          score := res.score } ∧
      res.allGuessed = l'.players.all (fun qp => qp.2.hasGuessed)) := by
  constructor
  · exact (submitGuess_once 5000 "p1" "hello" c7LobbyNoRound).1 rfl
  · exact (submitGuess_once 5000 "p1" "hello" c1Lobby).2.2 c1Round c1Player rfl (by decide) rfl

/-! ### C3: the round-count invariant -/

def c3Song1 : Song := mkSong "s1" "alpha" "artistone"

def c3Song2 : Song := mkSong "s2" "bravo" "artisttwo"

def c3Song3 : Song := mkSong "s3" "charlie" "artistthree"

def c3L0 : Lobby := initialLobby "ABCDE" "h1" "c1" "Host" demoAvatar 0

def c3L1 : Lobby := addSongsBulkL [c3Song1, c3Song2, c3Song3] c3L0

def c3L2 : Lobby := (startGameL c3L1).getD c3L1

def c3DummyRound : RoundState where
  roundNumber := 0
  song := c3Song1
  startedAt := 0
  phase := Phase.reveal
  guesses := []
  gridOptions := none

def c3Round : RoundState :=
  ((startRoundL 0 (fun x => x) (fun x => x) 50 c3L2).map Prod.fst).getD c3DummyRound

def c3L3 : Lobby :=
  ((startRoundL 0 (fun x => x) (fun x => x) 50 c3L2).map Prod.snd).getD c3L2

def c3End : EndRoundResult :=
  ((endRoundL c3L3).map Prod.fst).getD
    { song := c3Song1, scores := [], guesses := [], isGameOver := false }

def c3L4 : Lobby := ((endRoundL c3L3).map Prod.snd).getD c3L3

def c3Patch : SettingsPatch where
  mode := none
  guessStyle := none
  rounds := some 0
  timePerRound := none
  snippetDuration := none
  maxPlayers := none
  hintsEnabled := none
  showArtist := none
  scoreMultiplierSpeed := none

def c3Bad : Lobby := updateSettingsL c3Patch c3L4

/-- C3 counterexample to the claim as stated: with `updateSettings` allowed
after the game has started (as in the source, which has no state guard on
it), a reachable lobby violates `roundHistory.length ≤ settings.rounds`:
play one round of a 3-round game, then set `rounds := 0`. -/
theorem roundHistory_bounded_counterexample :
    ReachL true c3Bad ∧ c3Bad.settings.rounds < c3Bad.roundHistory.length := by
  constructor
  · have h0 : ReachL true c3L0 := ReachL.init "ABCDE" "h1" "c1" "Host" demoAvatar 0
    have h1 : ReachL true c3L1 :=
      ReachL.step _ _ h0 (Step.addSongsBulk [c3Song1, c3Song2, c3Song3] c3L0)
    have h2 : ReachL true c3L2 :=
      ReachL.step _ _ h1 (Step.startGame c3L1 c3L2 (by decide))
    have h3 : ReachL true c3L3 :=
      ReachL.step _ _ h2
        (Step.startRound 0 (fun x => x) (fun x => x) 50 c3L2 c3Round c3L3 (by decide))
    have h4 : ReachL true c3L4 :=
      ReachL.step _ _ h3 (Step.endRound c3L3 c3End c3L4 (by decide))
    exact ReachL.step _ _ h4 (Step.settings c3Patch c3L4 (Or.inl rfl))
  · decide

/-- C3 (amended): when `updateSettings` is only applied while the lobby is
waiting, every reachable lobby satisfies `roundHistory.length ≤
settings.rounds`, reaches `game_over` only with `roundHistory.length =
settings.rounds`, and `endRound` yields `game_over` exactly when the
archived history has reached `settings.rounds`. -/
theorem roundHistory_bounded {l : Lobby} (h : ReachL false l) :
    l.roundHistory.length ≤ l.settings.rounds ∧
    (l.state = LobbyState.gameOver → l.roundHistory.length = l.settings.rounds) ∧
    (∀ res l', endRoundL l = some (res, l') →
      (l'.state = LobbyState.gameOver ↔ l'.roundHistory.length = l'.settings.rounds)) := by
  obtain ⟨h1, h2, h3, h4⟩ := reach_inv h
  refine ⟨h1, h4, ?_⟩
  intro res l' heq
  obtain ⟨round, hcur, f1, f2, f3, f4⟩ := endRoundL_shape heq
  obtain ⟨hlt, hpl⟩ := h2 round hcur
  constructor
  · intro hg
    rw [f4] at hg
    rw [f1, f2]
    split at hg
    · omega
    · rw [hpl] at hg
      exact LobbyState.noConfusion hg
  · intro hlen
    rw [f1, f2] at hlen
    rw [f4]
    rw [if_pos (by omega)]

/-- C3 witness: the invariant instantiated at a freshly created lobby. -/
theorem roundHistory_bounded_witness :
    (initialLobby "GGGGG" "p9" "s9" "W" demoAvatar 0).roundHistory.length ≤
      (initialLobby "GGGGG" "p9" "s9" "W" demoAvatar 0).settings.rounds :=
  (roundHistory_bounded (ReachL.init "GGGGG" "p9" "s9" "W" demoAvatar 0)).1

/-! ### C5: leaveLobby -/

theorem isEmpty_true_iff {α : Type} (l : List α) : l.isEmpty = true ↔ l = [] := by
  cases l <;> simp

/-- C5: `leaveLobby` removes the caller's player and both connection-index
entries; if the player set becomes empty the lobby is deleted (lookup by its
code then fails), and otherwise, if the departing player was the (unique)
host, exactly one remaining player ends up with host status — the first
remaining player — and `hostId` is updated to that player's key. -/
theorem leaveLobby_spec (gm : GameManager) (sid code pid : String) (lobby : Lobby)
    (pOld : Player)
    (h1 : alookup sid gm.playerToLobby = some code)
    (h2 : alookup sid gm.playerIds = some pid)
    (h3 : alookup code gm.lobbies = some lobby)
    (h4 : alookup pid lobby.players = some pOld)
    (hndP : (lobby.players.map Prod.fst).Nodup)
    (hndL : (gm.lobbies.map Prod.fst).Nodup)
    (hnd1 : (gm.playerToLobby.map Prod.fst).Nodup)
    (hnd2 : (gm.playerIds.map Prod.fst).Nodup) :
    alookup sid (leaveLobby gm sid).1.playerToLobby = none ∧
    alookup sid (leaveLobby gm sid).1.playerIds = none ∧
    (aremove pid lobby.players = [] → alookup code (leaveLobby gm sid).1.lobbies = none) ∧
    (aremove pid lobby.players ≠ [] →
      ∃ lobby', alookup code (leaveLobby gm sid).1.lobbies = some lobby' ∧
        alookup pid lobby'.players = none ∧
        (pOld.isHost = true →
          (∀ qp ∈ lobby.players, qp.2.isHost = true → qp.1 = pid) →
          (lobby'.players.filter (fun qp => qp.2.isHost)).length = 1 ∧
          lobby'.hostId = ((aremove pid lobby.players).map Prod.fst).headD (String.mk []) ∧
          ∃ ph, alookup lobby'.hostId lobby'.players = some ph ∧ ph.isHost = true)) := by
  simp only [leaveLobby, h1, h2, h3, h4, Option.map_some', Option.getD_some]
  by_cases hemp : aremove pid lobby.players = []
  · rw [if_pos (by rw [hemp]; rfl)]
    refine ⟨alookup_aremove_self _ _ hnd1, alookup_aremove_self _ _ hnd2, ?_, ?_⟩
    · intro _
      exact alookup_aremove_self _ _ hndL
    · intro hne
      exact absurd hemp hne
  · rw [if_neg (fun hk => hemp ((isEmpty_true_iff _).1 hk))]
    by_cases hwh : pOld.isHost = true
    · rw [if_pos hwh]
      obtain ⟨hd, tl, hcons⟩ := List.exists_cons_of_ne_nil hemp
      obtain ⟨hk, hv⟩ := hd
      have hkne : hk ≠ pid :=
        (mem_aremove_of_nodup pid lobby.players hndP (hk, hv)
          (hcons ▸ List.mem_cons_self _ _)).2
      have htl : alookup pid tl = none := by
        have h0 := alookup_aremove_self pid lobby.players hndP
        rw [hcons] at h0
        simpa [alookup, hkne] using h0
      rw [hcons]
      have ha : alookup hk ((hk, hv) :: tl) = some hv := by simp [alookup]
      simp only [List.map_cons, List.headD_cons, ha]
      have hb : aset hk { hv with isHost := true } ((hk, hv) :: tl) =
          (hk, { hv with isHost := true }) :: tl := by simp [aset]
      rw [hb]
      refine ⟨alookup_aremove_self _ _ hnd1, alookup_aremove_self _ _ hnd2, ?_, ?_⟩
      · intro habs
        exact List.noConfusion habs
      · intro _
        refine ⟨_, alookup_aset_self _ _ _, ?_, ?_⟩
        · show alookup pid ((hk, { hv with isHost := true }) :: tl) = none
          simp only [alookup, if_neg hkne]
          exact htl
        · intro _ hhost
          have hfil : tl.filter (fun qp => qp.2.isHost) = [] := by
            rw [List.filter_eq_nil_iff]
            intro qp hqp
            have hmem := mem_aremove_of_nodup pid lobby.players hndP qp
              (hcons ▸ List.mem_cons_of_mem _ hqp)
            intro habs
            exact hmem.2 (hhost qp hmem.1 habs)
          refine ⟨?_, rfl, ?_⟩
          · show (((hk, { hv with isHost := true }) :: tl).filter
              (fun qp => qp.2.isHost)).length = 1
            rw [List.filter_cons_of_pos rfl, hfil]
            rfl
          · refine ⟨{ hv with isHost := true }, ?_, rfl⟩
            show alookup hk ((hk, { hv with isHost := true }) :: tl) = some _
            simp [alookup]
    · rw [if_neg hwh]
      refine ⟨alookup_aremove_self _ _ hnd1, alookup_aremove_self _ _ hnd2, ?_, ?_⟩
      · intro habs
        exact absurd habs hemp
      · intro _
        exact ⟨_, alookup_aset_self _ _ _, alookup_aremove_self _ _ hndP,
          fun hcon _ => absurd hcon hwh⟩

def c5Host : Player := initialPlayer "p1" "s1" "Host" demoAvatar

def c5Guest : Player := joinedPlayer "p2" "s2" "Guest" demoAvatar

def c5Lobby : Lobby where
  code := "HHHHH"
  hostId := "p1"
  state := LobbyState.waiting
  players := [("p1", c5Host), ("p2", c5Guest)]
  settings := defaultSettings
  songs := []
  currentRound := none
  roundHistory := []
  createdAt := 0

def c5GM : GameManager where
  lobbies := [("HHHHH", c5Lobby)]
  playerToLobby := [("s1", "HHHHH"), ("s2", "HHHHH")]
  playerIds := [("s1", "p1"), ("s2", "p2")]

def c5SoloLobby : Lobby := initialLobby "JJJJJ" "p9" "s9" "Solo" demoAvatar 0

def c5SoloGM : GameManager where
  lobbies := [("JJJJJ", c5SoloLobby)]
  playerToLobby := [("s9", "JJJJJ")]
  playerIds := [("s9", "p9")]

/-- C5 witness: the host leaving a 2-player lobby removes their index entry,
removes their player, and leaves exactly one host among the remaining
players; the only player leaving a 1-player lobby deletes the lobby. -/
theorem leaveLobby_spec_witness :
    alookup "s1" (leaveLobby c5GM "s1").1.playerToLobby = none ∧
    (∃ lobby', alookup "HHHHH" (leaveLobby c5GM "s1").1.lobbies = some lobby' ∧
      alookup "p1" lobby'.players = none ∧
      (lobby'.players.filter (fun qp => qp.2.isHost)).length = 1) ∧
    alookup "JJJJJ" (leaveLobby c5SoloGM "s9").1.lobbies = none := by
  obtain ⟨w1, -, -, w4⟩ := leaveLobby_spec c5GM "s1" "HHHHH" "p1" c5Lobby c5Host
    (by decide) (by decide) (by decide) (by decide)
    (by decide) (by decide) (by decide) (by decide)
  obtain ⟨-, -, w3, -⟩ := leaveLobby_spec c5SoloGM "s9" "JJJJJ" "p9" c5SoloLobby
    (initialPlayer "p9" "s9" "Solo" demoAvatar)
    (by decide) (by decide) (by decide) (by decide)
    (by decide) (by decide) (by decide) (by decide)
  refine ⟨w1, ?_, w3 (by decide)⟩
  obtain ⟨lobby', ha, hb, hc⟩ := w4 (by decide)
  obtain ⟨hc1, -, -⟩ := hc (by decide) (by decide)
  exact ⟨lobby', ha, hb, hc1⟩

/-! ### C6: joinLobby -/

/-- C6: `joinLobby` fails with `LobbyNotFound` when the case-insensitively
looked-up code matches no live lobby, with `GameInProgress` when the lobby
is not waiting, and with `LobbyFull` when the player count has reached
`maxPlayers`, in that order; on success it adds a non-host, not-ready
player and registers both connection-index entries. -/
theorem joinLobby_spec (gm : GameManager) (code sid name : String) (av : Avatar)
    (pid : String) :
    (alookup (upperStr code) gm.lobbies = none →
      joinLobby gm code sid name av pid = Except.error JoinError.lobbyNotFound) ∧
    (∀ L, alookup (upperStr code) gm.lobbies = some L → L.state ≠ LobbyState.waiting →
      joinLobby gm code sid name av pid = Except.error JoinError.gameInProgress) ∧
    (∀ L, alookup (upperStr code) gm.lobbies = some L → L.state = LobbyState.waiting →
      L.settings.maxPlayers ≤ L.players.length →
      joinLobby gm code sid name av pid = Except.error JoinError.lobbyFull) ∧
    (∀ L, alookup (upperStr code) gm.lobbies = some L → L.state = LobbyState.waiting →
      L.players.length < L.settings.maxPlayers →
      ∃ gm' L', joinLobby gm code sid name av pid = Except.ok (gm', L', pid) ∧
        alookup pid L'.players = some (joinedPlayer pid sid name av) ∧
        (joinedPlayer pid sid name av).isHost = false ∧
        (joinedPlayer pid sid name av).isReady = false ∧
        alookup sid gm'.playerToLobby = some (upperStr code) ∧
        alookup sid gm'.playerIds = some pid) := by
  refine ⟨?_, ?_, ?_, ?_⟩
  · intro h
    simp only [joinLobby, h]
  · intro L hL hst
    simp only [joinLobby, hL]
    rw [if_pos hst]
  · intro L hL hst hful
    simp only [joinLobby, hL]
    rw [if_neg (fun hk => hk hst), if_pos hful]
  · intro L hL hst hcap
    simp only [joinLobby, hL]
    rw [if_neg (fun hk => hk hst), if_neg (Nat.not_le.mpr hcap)]
    exact ⟨_, _, rfl, alookup_aset_self _ _ _, rfl, rfl,
      alookup_aset_self _ _ _, alookup_aset_self _ _ _⟩

def c6Lobby : Lobby := initialLobby "ABCDE" "h6" "s6" "Host" demoAvatar 0

def c6GM : GameManager where
  lobbies := [("ABCDE", c6Lobby)]
  playerToLobby := [("s6", "ABCDE")]
  playerIds := [("s6", "h6")]

/-- C6 witness: an unknown code fails with `LobbyNotFound`; the lower-case
code `abcde` reaches the lobby stored under `ABCDE` and joins a non-host,
not-ready player with both index entries registered. -/
theorem joinLobby_spec_witness :
    joinLobby c6GM "zzzzz" "s7" "Bea" demoAvatar "p7" =
      Except.error JoinError.lobbyNotFound ∧
    (∃ gm' L', joinLobby c6GM "abcde" "s7" "Bea" demoAvatar "p7" =
        Except.ok (gm', L', "p7") ∧
      alookup "p7" L'.players = some (joinedPlayer "p7" "s7" "Bea" demoAvatar) ∧
      (joinedPlayer "p7" "s7" "Bea" demoAvatar).isHost = false ∧
      (joinedPlayer "p7" "s7" "Bea" demoAvatar).isReady = false ∧
      alookup "s7" gm'.playerToLobby = some (upperStr "abcde") ∧
      alookup "s7" gm'.playerIds = some "p7") := by
  constructor
  · exact (joinLobby_spec c6GM "zzzzz" "s7" "Bea" demoAvatar "p7").1 (by decide)
  · exact (joinLobby_spec c6GM "abcde" "s7" "Bea" demoAvatar "p7").2.2.2 c6Lobby
      (by decide) (by decide) (by decide)
